import Mathlib

/-!
Verification of the color-ramp generator (`bin/color_map_gen.py`): a shallow
embedding of the gradient/stop engine and proofs about it.

Python floats are modelled as exact rationals (`ℚ`); Python exceptions are
modelled with `Except PyError`.  Line numbers in comments refer to
`bin/color_map_gen.py`.
-/

namespace ColorMapGen

/-- Exceptions the modelled code can raise: Python's ZeroDivisionError
(raised by `x / 0`) and ValueError (raised by `int(s, 16)` on bad input). -/
inductive PyError where
  | zeroDivision
  | valueError
deriving DecidableEq, Repr

/-- One parsed input line: a breakpoint record `(color, value, opacity?)`.
The thin CSV/SLD loader is out of scope; values arrive already parsed, so
`float(line[1])` is the `value` field and the `len(line) > 2` opacity
default is `Option.getD 1`. -/
structure Record where
  color : String
  value : ℚ
  opacity : Option ℚ
deriving DecidableEq, Repr, Inhabited

/-- Value of one hexadecimal digit, as accepted by Python's `int(s, 16)`. -/
def hexDigitVal (c : Char) : Option ℕ :=
  if ('0' ≤ c ∧ c ≤ '9') then some (c.toNat - 48)
  else if ('a' ≤ c ∧ c ≤ 'f') then some (c.toNat - 87)
  else if ('A' ≤ c ∧ c ≤ 'F') then some (c.toNat - 55)
  else none

/-- Accumulating base-16 parse of a digit string. -/
def parseHexGo : List Char → ℕ → Option ℕ
  | [], acc => some acc
  | c :: rest, acc =>
    match hexDigitVal c with
    | none => none
    | some d => parseHexGo rest (16 * acc + d)

/-- Python `int(s, 16)` on a run of characters: ValueError (here `none`) on
an empty run or any non-hex character.  (Whitespace, signs and `0x`
prefixes never occur in the slices the program takes.) -/
def parseHex (cs : List Char) : Option ℕ :=
  if cs.isEmpty then none else parseHexGo cs 0

/-- Lines 74-77: `hex_to_RGB`, `[int(hex[i:i+2], 16) for i in range(1,6,2)]`,
slicing the characters at positions 1-2, 3-4 and 5-6 of the string. -/
def hex_to_RGB (hex : String) : Option (List ℕ) :=
  let cs := hex.data
  match parseHex ((cs.drop 1).take 2), parseHex ((cs.drop 3).take 2),
      parseHex ((cs.drop 5).take 2) with
  | some r, some g, some b => some [r, g, b]
  | _, _, _ => none

/-- Python's lowercase hexadecimal format of an integer (the format-x
conversion of line 84), with a minus sign for negative `v` (only
non-negative channels occur in practice).  `Nat.toDigits 16` produces
exactly Python's lowercase digits. -/
def pyHexDigits (v : ℤ) : String :=
  if v < 0 then "-" ++ String.mk (Nat.toDigits 16 v.natAbs)
  else String.mk (Nat.toDigits 16 v.natAbs)

/-- Line 84 per channel: a "0" is prepended to the hex digits if v < 16. -/
def hexChannel (v : ℤ) : String :=
  if v < 16 then "0" ++ pyHexDigits v else pyHexDigits v

/-- Lines 81-84: `RGB_to_hex`.  The `int(x)` conversion of the source is the
identity here because the interpolator already produces integers. -/
def RGB_to_hex (RGB : List ℤ) : String :=
  "#" ++ String.join (RGB.map hexChannel)

/-- Python `int()` applied to a float: truncation toward zero. -/
def pyInt (q : ℚ) : ℤ :=
  if q < 0 then ⌈q⌉ else ⌊q⌋

/-- Rounding half to even, used by Python's fixed-point `format`. -/
def roundHalfEven (q : ℚ) : ℤ :=
  if q - ⌊q⌋ < 1/2 then ⌊q⌋
  else if 1/2 < q - ⌊q⌋ then ⌊q⌋ + 1
  else if ⌊q⌋ % 2 = 0 then ⌊q⌋ else ⌊q⌋ + 1

/-- Decimal digits of `m`, left-padded with zeros to width `w`. -/
def decimalDigits (m : ℕ) (w : ℕ) : String :=
  String.mk (List.replicate (w - (toString m).length) '0') ++ toString m

/-- Python's fixed-point format of width 10 with 10 fractional digits
followed by `.strip()` (line 181), on the exact rational: rounding half to
even; the `.strip()` is a no-op since the rendered text is always wider
than the field width of 10. -/
def fmt10 (q : ℚ) : String :=
  let n := roundHalfEven (q * 10 ^ 10)
  (if n < 0 then "-" else "") ++ toString (n.natAbs / 10 ^ 10) ++ "." ++
    decimalDigits (n.natAbs % 10 ^ 10) 10

/-- Python `str()` of a float, idealized on exact rationals: integral values
print as `<i>.0`; other values print their decimal expansion to 17 places
with trailing zeros dropped. -/
def pyFloatStr (q : ℚ) : String :=
  if q.den = 1 then toString q.num ++ ".0"
  else
    let n := roundHalfEven (|q| * 10 ^ 17)
    let fp := (decimalDigits (n.natAbs % 10 ^ 17) 17).data
    let trimmed := (fp.reverse.dropWhile (· == '0')).reverse
    (if q < 0 then "-" else "") ++ toString (n.natAbs / 10 ^ 17) ++ "." ++
      (if trimmed.isEmpty then "0" else String.mk trimmed)

/-- Line 37: the fixed total stop budget. -/
def MAX_NUM_COLORS : ℕ := 255

/-- One quantized color stop: the values one iteration of the loop at lines
161-189 computes.  `vec` is `curr_vector`, `hex` the quantized color,
`opacityStr` the literal `opacityStr` string, `opacityVal` its numeric value
(`float(opacityStr)`), `rangeStart`/`rangeEnd` the covered value range
(`step_val` before the increment, and `upper_bound`). -/
structure Stop where
  vec : List ℤ
  hex : String
  opacityStr : String
  opacityVal : ℚ
  rangeStart : ℚ
  rangeEnd : ℚ
deriving DecidableEq, Repr, Inhabited

/-- Lines 146-154: the per-step value increment `delta`, over- then
re-computed depending on `exclude_end`. -/
def gdelta (start_val end_val : ℚ) (n : ℕ) (exclude_end : Bool) : ℚ :=
  if exclude_end then (end_val - start_val) / (n : ℚ)
  else (end_val - start_val) / ((n : ℚ) - 1)

/-- The body of the loop at lines 161-189 for step `t`, where `stepVal` is
the running `step_val`.  In exact arithmetic the later `step_val - delta`
of line 183 equals `stepVal`, so the stop label is `rangeStart`. -/
def genStep (s f : List ℕ) (end_val δ start_opacity end_opacity : ℚ) (n : ℕ)
    (exclude_end : Bool) (t : ℕ) (stepVal : ℚ) : Stop :=
  -- line 166: opacity only at the two endpoint steps, "1" in the interior
  let opacityStr := if t = 0 then pyFloatStr start_opacity
    else if t = n - 1 then pyFloatStr end_opacity else "1"
  let opacityVal : ℚ := if t = 0 then start_opacity
    else if t = n - 1 then end_opacity else 1
  -- lines 170-173: per-channel linear interpolation, truncated by int()
  let p : ℚ := if exclude_end then (t : ℚ) / (n : ℚ) else (t : ℚ) / ((n : ℚ) - 1)
  let vec := (List.range 3).map fun j =>
    pyInt ((s.getD j 0 : ℚ) + p * ((f.getD j 0 : ℚ) - (s.getD j 0 : ℚ)))
  -- lines 178-179: cap the upper bound at end_val, and force it there at t = n-2
  let ub := if (t : ℤ) = (n : ℤ) - 2 then end_val
    else if stepVal + δ ≤ end_val then stepVal + δ else end_val
  { vec := vec, hex := RGB_to_hex vec, opacityStr := opacityStr,
    opacityVal := opacityVal, rangeStart := stepVal, rangeEnd := ub }

/-- The loop at lines 161-189: `c` iterations remain, the current step is
`t`, and `stepVal` is threaded (`step_val += delta`). -/
def genLoop (s f : List ℕ) (end_val δ start_opacity end_opacity : ℚ) (n : ℕ)
    (exclude_end : Bool) : ℕ → ℕ → ℚ → List Stop
  | 0, _, _ => []
  | c + 1, t, stepVal =>
    genStep s f end_val δ start_opacity end_opacity n exclude_end t stepVal ::
      genLoop s f end_val δ start_opacity end_opacity n exclude_end c (t + 1) (stepVal + δ)

/-- Lines 141-189: `generate_gradient_values`, returning the list of stops
its loop produces.  Line 146 divides by `n - 1` before `exclude_end` is
consulted, so every call with `n = 1` raises ZeroDivisionError; line 148
then divides by `n`, so `n = 0` with `exclude_end` set also raises.  Lines
157-158 parse the two hex colors (ValueError on bad input). -/
def generate_gradient_values (start_hex finish_hex : String) (start_val end_val : ℚ)
    (n : ℕ) (start_opacity end_opacity : ℚ) (exclude_end : Bool) :
    Except PyError (List Stop) :=
  if n = 1 then .error .zeroDivision
  else if exclude_end = true ∧ n = 0 then .error .zeroDivision
  else
    match hex_to_RGB start_hex, hex_to_RGB finish_hex with
    | some s, some f =>
      .ok (genLoop s f end_val (gdelta start_val end_val n exclude_end)
        start_opacity end_opacity n exclude_end n 0 start_val)
    | _, _ => .error .valueError

/-- The per-segment bin sequence of lines 243-253: for each remaining
segment, `num_bins = bins_per_group if bins_remaining >= bins_per_group * 2
else bins_remaining`, then `bins_remaining -= num_bins`. -/
def allocGo (per : ℕ) : ℕ → ℕ → List ℕ
  | 0, _ => []
  | c + 1, rem =>
    (if per * 2 ≤ rem then per else rem) ::
      allocGo per c (rem - (if per * 2 ≤ rem then per else rem))

/-- Lines 236-253, the bin allocation of `run` (the spec's Bin Allocator):
`bins_per_group = ceil(totalBudget / numSegments)` (exact ceiling division
here; the source computes it through float division) and then the takeover
loop `allocGo`. -/
def allocate (numSegments totalBudget : ℕ) : List ℕ :=
  allocGo ((totalBudget + numSegments - 1) / numSegments) numSegments totalBudget

/-- Stable insertion into a value-sorted record list: together with `foldr`
this is extensionally Python's stable `sorted(lines, key=lambda x: float(x[1]))`
of line 233 (a stable ascending sort is unique). -/
def insertRec (r : Record) : List Record → List Record
  | [] => [r]
  | x :: rest => if r.value ≤ x.value then r :: x :: rest else x :: insertRec r rest

/-- Line 233: sort the parsed lines ascending by value (stable). -/
def sortRecords (lines : List Record) : List Record :=
  lines.foldr insertRec []

/-- The segment loop of lines 243-257: each element is `((line_a, line_b),
num_bins)`; `exclude_end` is true for every segment but the last (line 254:
`line_index == num_groups - 1`).  A raised exception aborts the whole run,
as in Python. -/
def segGo : List ((Record × Record) × ℕ) → Except PyError (List Stop)
  | [] => .ok []
  | ((a, b), n) :: rest =>
    match generate_gradient_values a.color b.color a.value b.value n
        (a.opacity.getD 1) (b.opacity.getD 1) (!rest.isEmpty) with
    | .error e => .error e
    | .ok stops =>
      match segGo rest with
      | .error e => .error e
      | .ok more => .ok (stops ++ more)

/-- Lines 232-257 of `run`, producing the global stop sequence.  With no
input lines `num_groups = -1`: `ceil(255 / -1)` is defined and the loop
body never executes, so the result is an empty stop list.  With exactly one
line `num_groups = 0` and line 237 divides 255 by zero.  Otherwise the
segments are the consecutive pairs of the sorted lines zipped with their
allocated bins. -/
def runStops (lines : List Record) : Except PyError (List Stop) :=
  match lines with
  | [] => .ok []
  | [_] => .error .zeroDivision
  | _ =>
    segGo ((lines.zip lines.tail).zip (allocate (lines.length - 1) MAX_NUM_COLORS))

/-- Line 181: `val_range`, the string stored in `COLOR_VAL_MAP`. -/
def valRangeStr (st : Stop) : String :=
  fmt10 st.rangeStart ++ "," ++ fmt10 st.rangeEnd

/-- Python dict assignment `m[k] = v`: replace in place, else append. -/
def insertAssoc (m : List (String × String)) (k v : String) : List (String × String) :=
  match m with
  | [] => [(k, v)]
  | (k0, v0) :: rest => if k0 = k then (k0, v) :: rest else (k0, v0) :: insertAssoc rest k v

/-- Python dict lookup `m[k]`. -/
def lookupAssoc (m : List (String × String)) (k : String) : Option String :=
  (m.find? fun p => p.1 == k).map Prod.snd

/-- Line 184 folded over the run: the global `COLOR_VAL_MAP`. -/
def colorValMapOf (stops : List Stop) : List (String × String) :=
  stops.foldl (fun m st => insertAssoc m st.hex (valRangeStr st)) []

/-- Line 186: one `color-map-entry` appended to the CSS buffer. -/
def cssEntry (st : Stop) : String :=
  "\n\tcolor-map-entry(\"" ++ st.hex ++ "\"," ++ fmt10 st.rangeStart ++ "," ++
    st.opacityStr ++ ")"

/-- Line 187: one `sld:ColorMapEntry` element appended to the SLD buffer. -/
def sldEntry (st : Stop) : String :=
  "\n\t\t\t\t\t<sld:ColorMapEntry color=\"" ++ st.hex ++ "\" opacity=\"" ++
    st.opacityStr ++ "\" quantity=\"" ++ fmt10 st.rangeStart ++ "\"/>"

/-- Line 188's alpha column: `"0" if float(opacityStr) == 0 else "255"`. -/
def lutAlphaStr (st : Stop) : String :=
  if st.opacityVal = 0 then "0" else "255"

/-- Line 188: one GDAL LUT line. -/
def lutLine (st : Stop) : String :=
  fmt10 st.rangeStart ++ " " ++ String.intercalate (" ") (st.vec.map toString) ++
    " " ++ lutAlphaStr st ++ "\n"

/-- Line 189's transparency flag: `'true' if float(opacityStr) == 0 else 'false'`. -/
def gibsTransparentStr (st : Stop) : String :=
  if st.opacityVal = 0 then "true" else "false"

/-- Line 189: one GIBS `ColorMapEntry` element. -/
def gibsEntry (st : Stop) : String :=
  "\t<ColorMapEntry rgb=\"" ++ String.intercalate (",") (st.vec.map toString) ++
    "\" transparent=\"" ++ gibsTransparentStr st ++ "\" label=\"" ++
    fmt10 st.rangeStart ++ "\"/>\n"

/-- Line 194: the CSS buffer's initial value. -/
def cssHeader : String :=
  "* \x7b\nraster-channels:auto;\nraster-color-map:"

/-- Line 209: what `finish_geoserver_string` appends to the CSS buffer. -/
def cssFooter : String :=
  ";\nraster-color-map-type:intervals;\n\x7d"

/-- Lines 195-203: the SLD buffer's initial value. -/
def sldHeader : String :=
  "<?xml version=\"1.0\" encoding=\"UTF-8\"?>" ++
    "<sld:UserStyle xmlns=\"http://www.opengis.net/sld\" xmlns:sld=\"http://www.opengis.net/sld\" " ++
    "xmlns:ogc=\"http://www.opengis.net/ogc\" xmlns:gml=\"http://www.opengis.net/gml\">\n" ++
    "\t<sld:Name>Default Styler</sld:Name>\n" ++
    "\t<sld:FeatureTypeStyle>\n" ++
    "\t\t<sld:Name>name</sld:Name>\n" ++
    "\t\t<sld:Rule>\n" ++
    "\t\t\t<sld:RasterSymbolizer>\n" ++
    "\t\t\t\t<sld:ColorMap type=\"intervals\">"

/-- Lines 210-214: what `finish_geoserver_string` appends to the SLD buffer. -/
def sldFooter : String :=
  "\n\t\t\t\t</sld:ColorMap>\n" ++
    "\t\t\t</sld:RasterSymbolizer>\n" ++
    "\t\t</sld:Rule>\n" ++
    "\t</sld:FeatureTypeStyle>\n" ++
    "</sld:UserStyle>\n"

/-- Lines 204-206: the GIBS buffer's initial value. -/
def gibsHeader : String :=
  "<?xml version=\"1.0\" encoding=\"UTF-8\"?>\n" ++
    "<ColorMap xmlns:xsi=\"http://www.w3.org/2001/XMLSchema-instance\" xsi:noNamespaceSchemaLocation=" ++
    "\"http://gibs.earthdata.nasa.gov/schemas/ColorMap_v1.0.xsd\">\n"

/-- Line 215: what `finish_geoserver_string` appends to the GIBS buffer. -/
def gibsFooter : String :=
  "</ColorMap>"

/-- Line 186 folded over the run, wrapped by lines 194 and 209. -/
def cssStringOf (stops : List Stop) : String :=
  stops.foldl (fun acc st => acc ++ cssEntry st) cssHeader ++ cssFooter

/-- Line 187 folded over the run, wrapped by lines 195-203 and 210-214. -/
def sldStringOf (stops : List Stop) : String :=
  stops.foldl (fun acc st => acc ++ sldEntry st) sldHeader ++ sldFooter

/-- Line 188 folded over the run (the LUT buffer starts empty, line 40, and
`finish_geoserver_string` appends nothing to it). -/
def lutStringOf (stops : List Stop) : String :=
  stops.foldl (fun acc st => acc ++ lutLine st) ""

/-- Line 189 folded over the run, wrapped by lines 204-206 and 215. -/
def gibsStringOf (stops : List Stop) : String :=
  stops.foldl (fun acc st => acc ++ gibsEntry st) gibsHeader ++ gibsFooter

/-- Everything one invocation computes: the stop sequence (the spec's
Gradient) and the six serialized outputs.  The source interleaves all the
appends of lines 184-189 in the one loop; each append depends only on that
iteration's values, so folding each buffer over the finished stop list
yields the same strings. -/
structure RunResult where
  stops : List Stop
  colorValMap : List (String × String)
  cssColorMap : List (String × String)
  cssString : String
  sldString : String
  lutString : String
  gibsString : String
deriving DecidableEq, Repr, Inhabited

/-- The output buffers as functions of the finished stop sequence.
`cssColorMap` is the stop-list JSON's content (line 185): color and stop
label pairs in assembly order. -/
def buildResult (stops : List Stop) : RunResult :=
  { stops := stops
    colorValMap := colorValMapOf stops
    cssColorMap := stops.map fun st => (st.hex, fmt10 st.rangeStart)
    cssString := cssStringOf stops
    sldString := sldStringOf stops
    lutString := lutStringOf stops
    gibsString := gibsStringOf stops }

/-- Lines 219-260: `run` without its file I/O — sort the parsed lines,
generate all stops, build every output buffer. -/
def run (argLines : List Record) : Except PyError RunResult :=
  (runStops (sortRecords argLines)).map buildResult

/-- The rounding the spec's words claim for the interpolated channels,
`round(start[c] + p * (end[c] - start[c]))`: nearest integer, halves up.
Stated only for comparison with the code's `int()` truncation. -/
def specRound (q : ℚ) : ℤ := ⌊q + 1/2⌋

/-- A character of the lowercase hexadecimal alphabet. -/
def isLowerHexDigit (c : Char) : Bool :=
  ('0' ≤ c && c ≤ '9') || ('a' ≤ c && c ≤ 'f')

/-- Adjacent stops meet exactly: each stop's rangeEnd is the next stop's
rangeStart. -/
def contiguousStops (stops : List Stop) : Prop :=
  ∀ i, i + 1 < stops.length →
    (stops.getD i default).rangeEnd = (stops.getD (i + 1) default).rangeStart

/-- No stop's range runs backwards. -/
def nondecreasingStops (stops : List Stop) : Prop :=
  ∀ i, i < stops.length →
    (stops.getD i default).rangeStart ≤ (stops.getD i default).rangeEnd

/-- The first stop's range starts at `lo` and the last stop's range ends at
`hi`. -/
def coversStops (stops : List Stop) (lo hi : ℚ) : Prop :=
  (stops.getD 0 default).rangeStart = lo ∧
    (stops.getD (stops.length - 1) default).rangeEnd = hi

/-- The concrete three-breakpoint input 0, 1, 2 used as counterexample. -/
def threeBp : List Record :=
  [⟨"#000000", 0, none⟩, ⟨"#808080", 1, none⟩, ⟨"#ffffff", 2, none⟩]

/-- Two distinct stops that quantize to the same hex color. -/
def stopA : Stop := ⟨[1, 2, 3], "#010203", "1", 1, 0, 1⟩

/-- The later colliding stop: same hex, different range. -/
def stopB : Stop := ⟨[1, 2, 3], "#010203", "1", 1, 1, 2⟩

/-! Helper lemmas. -/

theorem pyInt_eq_floor (q : ℚ) (h : 0 ≤ q) : pyInt q = ⌊q⌋ := by
  unfold pyInt
  rw [if_neg (not_lt.mpr h)]

theorem genLoop_length (s f : List ℕ) (ev δ sop eop : ℚ) (n : ℕ) (ex : Bool) :
    ∀ (c t : ℕ) (v : ℚ), (genLoop s f ev δ sop eop n ex c t v).length = c := by
  intro c
  induction c with
  | zero => intro t v; rfl
  | succ c ih => intro t v; simpa [genLoop] using ih (t + 1) (v + δ)

theorem genLoop_getD (s f : List ℕ) (ev δ sop eop : ℚ) (n : ℕ) (ex : Bool) :
    ∀ (c i t : ℕ) (v : ℚ), i < c →
      (genLoop s f ev δ sop eop n ex c t v).getD i default =
        genStep s f ev δ sop eop n ex (t + i) (v + i * δ) := by
  intro c
  induction c with
  | zero => intro i t v hi; exact absurd hi (Nat.not_lt_zero i)
  | succ c ih =>
    intro i t v hi
    cases i with
    | zero => simp [genLoop]
    | succ i =>
      have := ih i (t + 1) (v + δ) (Nat.lt_of_succ_lt_succ hi)
      rw [genLoop]
      show (genLoop s f ev δ sop eop n ex c (t + 1) (v + δ)).getD i default = _
      rw [this]
      have harith : v + δ + (i : ℚ) * δ = v + ((i : ℕ) + 1 : ℚ) * δ := by ring
      have hcast : (((i : ℕ) + 1 : ℕ) : ℚ) = ((i : ℕ) : ℚ) + 1 := by push_cast; ring
      rw [show t + 1 + i = t + (i + 1) by omega]
      rw [hcast, harith]

theorem generate_eq_ok (sh fh : String) (sv ev : ℚ) (n : ℕ) (sop eop : ℚ) (ex : Bool)
    (s f : List ℕ) (hs : hex_to_RGB sh = some s) (hf : hex_to_RGB fh = some f)
    (hn : n ≠ 1) (h0 : ¬(ex = true ∧ n = 0)) :
    generate_gradient_values sh fh sv ev n sop eop ex =
      .ok (genLoop s f ev (gdelta sv ev n ex) sop eop n ex n 0 sv) := by
  unfold generate_gradient_values
  rw [if_neg hn, if_neg h0, hs, hf]

theorem generate_ok_inv (sh fh : String) (sv ev : ℚ) (n : ℕ) (sop eop : ℚ) (ex : Bool)
    (stops : List Stop)
    (h : generate_gradient_values sh fh sv ev n sop eop ex = .ok stops) :
    ∃ s f, hex_to_RGB sh = some s ∧ hex_to_RGB fh = some f ∧ n ≠ 1 ∧
      ¬(ex = true ∧ n = 0) ∧
      stops = genLoop s f ev (gdelta sv ev n ex) sop eop n ex n 0 sv := by
  unfold generate_gradient_values at h
  split at h
  · exact absurd h (by simp)
  · split at h
    · exact absurd h (by simp)
    · split at h
      next s f hs hf =>
        exact ⟨s, f, hs, hf, by assumption, by assumption, (Except.ok.injEq _ _ |>.mp h).symm⟩
      next => exact absurd h (by simp)

theorem generate_ok_length (sh fh : String) (sv ev : ℚ) (n : ℕ) (sop eop : ℚ) (ex : Bool)
    (stops : List Stop)
    (h : generate_gradient_values sh fh sv ev n sop eop ex = .ok stops) :
    stops.length = n := by
  obtain ⟨s, f, _, _, _, _, hst⟩ := generate_ok_inv sh fh sv ev n sop eop ex stops h
  rw [hst, genLoop_length]

theorem allocGo_length (per : ℕ) : ∀ (c rem : ℕ), (allocGo per c rem).length = c := by
  intro c
  induction c with
  | zero => intro rem; rfl
  | succ c ih => intro rem; simp [allocGo, ih]

theorem allocGo_sum (per : ℕ) :
    ∀ (c rem : ℕ), rem ≤ c * per → (allocGo per c rem).sum = rem := by
  intro c
  induction c with
  | zero => intro rem h; simp at h; simp [allocGo, h]
  | succ c ih =>
    intro rem h
    rw [allocGo]
    by_cases hc : per * 2 ≤ rem
    · rw [if_pos hc, List.sum_cons, ih (rem - per) (by
        have : (c + 1) * per = c * per + per := by ring
        omega)]
      omega
    · rw [if_neg hc, List.sum_cons, Nat.sub_self, ih 0 (Nat.zero_le _)]
      omega

theorem allocate_length (k B : ℕ) : (allocate k B).length = k :=
  allocGo_length _ k B

theorem allocate_sum (k B : ℕ) (hk : 1 ≤ k) : (allocate k B).sum = B := by
  unfold allocate
  apply allocGo_sum
  have hmod := Nat.div_add_mod (B + k - 1) k
  have hlt : (B + k - 1) % k < k := Nat.mod_lt _ hk
  have : k * ((B + k - 1) / k) = (B + k - 1) / k * k := Nat.mul_comm _ _
  omega

theorem insertRec_perm (r : Record) : ∀ (l : List Record), (insertRec r l).Perm (r :: l) := by
  intro l
  induction l with
  | nil => exact List.Perm.refl _
  | cons x rest ih =>
    rw [insertRec]
    by_cases h : r.value ≤ x.value
    · rw [if_pos h]
    · rw [if_neg h]
      exact (List.Perm.cons x ih).trans (List.Perm.swap r x rest)

theorem sortRecords_perm (l : List Record) : (sortRecords l).Perm l := by
  induction l with
  | nil => exact List.Perm.refl _
  | cons x rest ih =>
    exact (insertRec_perm x (sortRecords rest)).trans (List.Perm.cons x ih)

theorem insertRec_sorted (r : Record) (l : List Record)
    (h : l.Pairwise fun a b => a.value ≤ b.value) :
    (insertRec r l).Pairwise fun a b => a.value ≤ b.value := by
  induction l with
  | nil => simp [insertRec]
  | cons x rest ih =>
    rw [insertRec]
    rcases List.pairwise_cons.mp h with ⟨hx, hrest⟩
    by_cases hle : r.value ≤ x.value
    · rw [if_pos hle]
      refine List.pairwise_cons.mpr ⟨?_, h⟩
      intro b hb
      rcases List.mem_cons.mp hb with hb2 | hb2
      · subst hb2; exact hle
      · exact le_trans hle (hx _ hb2)
    · rw [if_neg hle]
      refine List.pairwise_cons.mpr ⟨?_, ih hrest⟩
      intro b hb
      have hmem : b ∈ r :: rest := (insertRec_perm r rest).mem_iff.mp hb
      rcases List.mem_cons.mp hmem with hb2 | hb2
      · subst hb2; exact le_of_not_le hle
      · exact hx _ hb2

theorem sortRecords_sorted (l : List Record) :
    (sortRecords l).Pairwise fun a b => a.value ≤ b.value := by
  induction l with
  | nil => simp [sortRecords]
  | cons x rest ih => exact insertRec_sorted x _ ih

theorem sortRecords_length (l : List Record) : (sortRecords l).length = l.length :=
  (sortRecords_perm l).length_eq

/-- Permutations with pairwise-distinct values sort identically: the sorted
order is forced. -/
theorem sortRecords_eq_of_perm (p q : List Record) (hp : p.Perm q)
    (hd : (p.map Record.value).Nodup) : sortRecords p = sortRecords q := by
  haveI : IsAntisymm Record (fun a b : Record => a.value < b.value) :=
    ⟨fun a b h1 h2 => absurd h2 (not_lt.mpr (le_of_lt h1))⟩
  have hperm : (sortRecords p).Perm (sortRecords q) :=
    ((sortRecords_perm p).trans hp).trans (sortRecords_perm q).symm
  have hlt : ∀ (l : List Record), (l.map Record.value).Nodup →
      (sortRecords l).Pairwise fun a b : Record => a.value < b.value := by
    intro l hnd
    have hnd2 : ((sortRecords l).map Record.value).Nodup := by
      have : ((sortRecords l).map Record.value).Perm (l.map Record.value) :=
        (sortRecords_perm l).map Record.value
      exact this.nodup_iff.mpr hnd
    have hne : (sortRecords l).Pairwise fun a b : Record => a.value ≠ b.value :=
      List.pairwise_map.mp hnd2
    exact ((sortRecords_sorted l).and hne).imp fun h => lt_of_le_of_ne h.1 h.2
  have hdq : (q.map Record.value).Nodup := ((hp.map Record.value).nodup_iff).mp hd
  exact List.eq_of_perm_of_sorted hperm (hlt p hd) (hlt q hdq)

theorem segGo_ok_length : ∀ (segs : List ((Record × Record) × ℕ)) (stops : List Stop),
    segGo segs = .ok stops → stops.length = (segs.map fun x => x.2).sum := by
  intro segs
  induction segs with
  | nil => intro stops h; cases h; rfl
  | cons seg rest ih =>
    intro stops h
    obtain ⟨⟨a, b⟩, n⟩ := seg
    rw [segGo] at h
    cases hg : generate_gradient_values a.color b.color a.value b.value n
        (a.opacity.getD 1) (b.opacity.getD 1) (!rest.isEmpty) with
    | error e => rw [hg] at h; simp at h
    | ok stops1 =>
      rw [hg] at h
      cases hr : segGo rest with
      | error e => rw [hr] at h; simp at h
      | ok stops2 =>
        rw [hr] at h
        simp only [Except.ok.injEq] at h
        subst h
        have h1 := generate_ok_length _ _ _ _ _ _ _ _ _ hg
        have h2 := ih stops2 hr
        simp [List.length_append, h1, h2]

/-- For two or more (sorted) lines, `runStops` is the segment loop over the
consecutive pairs zipped with the allocated bins. -/
theorem runStops_cons2 (a b : Record) (rest : List Record) :
    runStops (a :: b :: rest) =
      segGo (((a :: b :: rest).zip (b :: rest)).zip
        (allocate (rest.length + 1) MAX_NUM_COLORS)) := rfl

theorem run_ok_stops_length (argLines : List Record) (res : RunResult)
    (hk : 2 ≤ argLines.length) (h : run argLines = .ok res) :
    res.stops.length = MAX_NUM_COLORS := by
  unfold run at h
  cases hrs : runStops (sortRecords argLines) with
  | error e => rw [hrs] at h; exact absurd h (by simp [Except.map])
  | ok stops =>
    rw [hrs] at h
    simp only [Except.map] at h
    cases h
    show (buildResult stops).stops.length = MAX_NUM_COLORS
    have hlen : 2 ≤ (sortRecords argLines).length := by
      rw [sortRecords_length]; exact hk
    obtain ⟨a, b, rest, hshape⟩ : ∃ a b rest, sortRecords argLines = a :: b :: rest := by
      cases hl : sortRecords argLines with
      | nil => rw [hl] at hlen; simp at hlen
      | cons a tl =>
        cases tl with
        | nil => rw [hl] at hlen; simp at hlen
        | cons b rest => exact ⟨a, b, rest, rfl⟩
    rw [hshape, runStops_cons2] at hrs
    have hsum := segGo_ok_length _ _ hrs
    have hzipbins :
        ((((a :: b :: rest).zip (b :: rest)).zip
          (allocate (rest.length + 1) MAX_NUM_COLORS)).map fun x => x.2) =
          allocate (rest.length + 1) MAX_NUM_COLORS := by
      apply List.map_snd_zip
      rw [allocate_length, List.length_zip]
      simp
    rw [hzipbins] at hsum
    rw [allocate_sum _ _ (Nat.le_add_left 1 _)] at hsum
    simpa [buildResult] using hsum

theorem genLoop_zero (s f : List ℕ) (ev δ sop eop : ℚ) (n : ℕ) (ex : Bool)
    (t : ℕ) (v : ℚ) : genLoop s f ev δ sop eop n ex 0 t v = [] := rfl

theorem genStep_rangeStart (s f : List ℕ) (ev δ sop eop : ℚ) (n : ℕ) (ex : Bool)
    (t : ℕ) (v : ℚ) : (genStep s f ev δ sop eop n ex t v).rangeStart = v := rfl

theorem genStep_rangeEnd (s f : List ℕ) (ev δ sop eop : ℚ) (n : ℕ) (ex : Bool)
    (t : ℕ) (v : ℚ) :
    (genStep s f ev δ sop eop n ex t v).rangeEnd =
      if (t : ℤ) = (n : ℤ) - 2 then ev
      else if v + δ ≤ ev then v + δ else ev := rfl

theorem genStep_opacityVal (s f : List ℕ) (ev δ sop eop : ℚ) (n : ℕ) (ex : Bool)
    (t : ℕ) (v : ℚ) :
    (genStep s f ev δ sop eop n ex t v).opacityVal =
      if t = 0 then sop else if t = n - 1 then eop else 1 := rfl

theorem genStep_vec (s f : List ℕ) (ev δ sop eop : ℚ) (n : ℕ) (ex : Bool)
    (t : ℕ) (v : ℚ) :
    (genStep s f ev δ sop eop n ex t v).vec =
      (List.range 3).map (fun j =>
        pyInt ((s.getD j 0 : ℚ) +
          (if ex then (t : ℚ) / (n : ℚ) else (t : ℚ) / ((n : ℚ) - 1)) *
            ((f.getD j 0 : ℚ) - (s.getD j 0 : ℚ)))) := rfl

theorem sortRecords_pair (r0 r1 : Record) :
    sortRecords [r0, r1] = if r0.value ≤ r1.value then [r0, r1] else [r1, r0] := by
  by_cases h : r0.value ≤ r1.value <;> simp [sortRecords, insertRec, h]

/-- Analysis of a sorted two-breakpoint run: the single segment is generated
with all 255 bins, `exclude_end = false`. -/
theorem runStops_pair (a b : Record) (sa fb : List ℕ)
    (hsa : hex_to_RGB a.color = some sa) (hfb : hex_to_RGB b.color = some fb) :
    runStops [a, b] =
      .ok (genLoop sa fb b.value (gdelta a.value b.value 255 false)
        (a.opacity.getD 1) (b.opacity.getD 1) 255 false 255 0 a.value) := by
  have halloc : allocate 1 MAX_NUM_COLORS = [255] := by decide
  have hzip : (([a, b].zip [b]).zip (allocate 1 MAX_NUM_COLORS)) = [((a, b), 255)] := by
    rw [halloc]; rfl
  rw [runStops_cons2 a b [], show ([] : List Record).length + 1 = 1 from rfl, hzip]
  rw [segGo]
  simp only [List.isEmpty_nil, Bool.not_true]
  rw [generate_eq_ok a.color b.color a.value b.value 255 (a.opacity.getD 1)
    (b.opacity.getD 1) false sa fb hsa hfb (by decide) (by decide)]
  rw [segGo]
  simp

theorem pair_stop_facts (a b : Record) (sa fb : List ℕ) (hab : a.value ≤ b.value)
    (hsa : hex_to_RGB a.color = some sa) (hfb : hex_to_RGB b.color = some fb) :
    ∃ stops, runStops [a, b] = .ok stops ∧ stops.length = 255 ∧
      contiguousStops stops ∧ nondecreasingStops stops ∧
      coversStops stops a.value b.value ∧
      (stops.getD 254 default).rangeEnd = b.value := by
  set δ := gdelta a.value b.value 255 false with hδdef
  set stops := genLoop sa fb b.value δ (a.opacity.getD 1) (b.opacity.getD 1)
    255 false 255 0 a.value with hstops
  have hlen : stops.length = 255 := genLoop_length _ _ _ _ _ _ _ _ _ _ _
  have hδ : 0 ≤ δ := by
    rw [hδdef, gdelta]
    simp only [Bool.false_eq_true, if_false]
    apply div_nonneg (by linarith)
    norm_num
  have hsum : (254 : ℚ) * δ = b.value - a.value := by
    rw [hδdef, gdelta]
    simp only [Bool.false_eq_true, if_false]
    rw [show ((255 : ℕ) : ℚ) - 1 = 254 by norm_num]
    field_simp
  have hkey : ∀ i : ℕ, i ≤ 254 → a.value + (i : ℚ) * δ ≤ b.value := by
    intro i hi
    have hc : (i : ℚ) ≤ 254 := by exact_mod_cast hi
    have := mul_le_mul_of_nonneg_right hc hδ
    linarith
  have hgetD : ∀ i : ℕ, i < 255 → stops.getD i default =
      genStep sa fb b.value δ (a.opacity.getD 1) (b.opacity.getD 1) 255 false i
        (a.value + (i : ℚ) * δ) := by
    intro i hi
    rw [hstops, genLoop_getD _ _ _ _ _ _ _ _ _ _ _ _ hi, Nat.zero_add]
  refine ⟨stops, runStops_pair a b sa fb hsa hfb, hlen, ?_, ?_, ⟨?_, ?_⟩, ?_⟩
  · -- contiguous
    intro i hi
    rw [hlen] at hi
    rw [hgetD i (by omega), hgetD (i + 1) (by omega), genStep_rangeEnd, genStep_rangeStart]
    by_cases h253 : i = 253
    · subst h253
      rw [if_pos (by norm_num)]
      push_cast
      linarith
    · rw [if_neg (by
        intro hcast
        apply h253
        have : (i : ℤ) = 253 := by rw [hcast]; norm_num
        exact_mod_cast this)]
      have hcap : a.value + (i : ℚ) * δ + δ ≤ b.value := by
        have := hkey (i + 1) (by omega)
        push_cast at this
        linarith
      rw [if_pos hcap]
      push_cast
      ring
  · -- nondecreasing
    intro i hi
    rw [hlen] at hi
    rw [hgetD i hi, genStep_rangeEnd, genStep_rangeStart]
    by_cases h253 : (i : ℤ) = (255 : ℕ) - 2
    · rw [if_pos h253]
      exact hkey i (by omega)
    · rw [if_neg h253]
      by_cases hcap : a.value + (i : ℚ) * δ + δ ≤ b.value
      · rw [if_pos hcap]; linarith
      · rw [if_neg hcap]; exact hkey i (by omega)
  · -- covers: first rangeStart
    rw [hgetD 0 (by omega), genStep_rangeStart]
    norm_num
  · -- covers: last rangeEnd
    rw [hlen]
    show (stops.getD 254 default).rangeEnd = b.value
    rw [hgetD 254 (by omega), genStep_rangeEnd]
    rw [if_neg (by norm_num)]
    push_cast
    by_cases hcap : a.value + (254 : ℚ) * δ + δ ≤ b.value
    · rw [if_pos hcap]; linarith
    · rw [if_neg hcap]
  · -- last rangeEnd again, stated at literal index 254
    rw [hgetD 254 (by omega), genStep_rangeEnd]
    rw [if_neg (by norm_num)]
    push_cast
    by_cases hcap : a.value + (254 : ℚ) * δ + δ ≤ b.value
    · rw [if_pos hcap]; linarith
    · rw [if_neg hcap]

theorem foldl_append_data (f : Stop → String) :
    ∀ (l : List Stop) (s : String),
      (l.foldl (fun acc st => acc ++ f st) s).data =
        s.data ++ (l.map fun st => (f st).data).flatten := by
  intro l
  induction l with
  | nil => intro s; simp
  | cons x rest ih =>
    intro s
    rw [List.foldl_cons, ih]
    simp [String.data_append, List.append_assoc]

theorem join_data : ∀ (l : List String), (String.join l).data = (l.map String.data).flatten := by
  have aux : ∀ (l : List String) (s : String),
      (l.foldl (fun r t => r ++ t) s).data = s.data ++ (l.map String.data).flatten := by
    intro l
    induction l with
    | nil => intro s; simp
    | cons x rest ih =>
      intro s
      rw [List.foldl_cons, ih]
      simp [String.data_append, List.append_assoc]
  intro l
  have := aux l ("")
  simpa [String.join] using this

theorem lookupAssoc_insert (m : List (String × String)) (k v k2 : String) :
    lookupAssoc (insertAssoc m k v) k2 =
      if k2 = k then some v else lookupAssoc m k2 := by
  induction m with
  | nil =>
    by_cases h : k2 = k
    · subst h; simp [insertAssoc, lookupAssoc, List.find?]
    · simp [insertAssoc, lookupAssoc, List.find?, h, Ne.symm h,
        show (k == k2) = false by simpa [beq_iff_eq] using Ne.symm h]
  | cons p rest ih =>
    obtain ⟨k0, v0⟩ := p
    rw [insertAssoc]
    by_cases h0 : k0 = k
    · subst h0
      by_cases h2 : k2 = k0
      · subst h2
        simp [lookupAssoc, List.find?]
      · simp [lookupAssoc, List.find?, show (k0 == k2) = false by simpa [beq_iff_eq] using Ne.symm h2, h2]
    · rw [if_neg h0]
      by_cases h2 : k2 = k0
      · subst h2
        have hkk : ¬ k2 = k := fun h => h0 (h.symm ▸ rfl)
        simp [lookupAssoc, List.find?, hkk]
      · have : (k0 == k2) = false := by simpa [beq_iff_eq] using Ne.symm h2
        simp only [lookupAssoc, List.find?, this] at ih ⊢
        exact ih

theorem colorValMapOf_append (l : List Stop) (a : Stop) :
    colorValMapOf (l ++ [a]) =
      insertAssoc (colorValMapOf l) a.hex (valRangeStr a) := by
  unfold colorValMapOf
  rw [List.foldl_append]
  rfl

theorem getLast?_eq_getD (l : List Stop) (n : ℕ) (h : l.length = n + 1) :
    l.getLast? = some (l.getD n default) := by
  rw [List.getLast?_eq_getElem?, h, Nat.add_sub_cancel,
    List.getElem?_eq_getElem (by omega), List.getD_eq_getElem l default (by omega)]

/-- Analysis of a sorted three-breakpoint run: `bins_per_group = 128`, but
`255 < 2 * 128`, so the first segment absorbs the whole 255-stop budget and
the second (last) segment is generated with 0 bins, contributing nothing. -/
theorem runStops_triple (a b c : Record) (sa sb sc : List ℕ)
    (ha : hex_to_RGB a.color = some sa) (hb : hex_to_RGB b.color = some sb)
    (hc : hex_to_RGB c.color = some sc) :
    runStops [a, b, c] =
      .ok (genLoop sa sb b.value (gdelta a.value b.value 255 true)
        (a.opacity.getD 1) (b.opacity.getD 1) 255 true 255 0 a.value) := by
  have halloc : allocate 2 MAX_NUM_COLORS = [255, 0] := by decide
  have hzip : (([a, b, c].zip [b, c]).zip (allocate 2 MAX_NUM_COLORS)) =
      [((a, b), 255), ((b, c), 0)] := by rw [halloc]; rfl
  rw [runStops_cons2 a b [c], show ([c] : List Record).length + 1 = 2 from rfl, hzip]
  rw [segGo]
  simp only [List.isEmpty_cons, Bool.not_false]
  rw [generate_eq_ok a.color b.color a.value b.value 255 (a.opacity.getD 1)
    (b.opacity.getD 1) true sa sb ha hb (by decide) (by decide)]
  rw [segGo]
  simp only [List.isEmpty_nil, Bool.not_true]
  rw [generate_eq_ok b.color c.color b.value c.value 0 (b.opacity.getD 1)
    (c.opacity.getD 1) false sb sc hb hc (by decide) (by decide)]
  rw [segGo]
  simp [genLoop_zero]

theorem threeBp_run_facts :
    ∃ res, run threeBp = .ok res ∧ res.stops.length = 255 ∧
      (res.stops.getD 253 default).rangeEnd = 1 ∧
      (res.stops.getD 254 default).rangeStart = 254 / 255 ∧
      (res.stops.getD 254 default).rangeEnd = 1 := by
  have hsort : sortRecords threeBp = threeBp := by decide
  have hs0 : hex_to_RGB ("#000000") = some [0, 0, 0] := by decide
  have hs1 : hex_to_RGB ("#808080") = some [128, 128, 128] := by decide
  have hs2 : hex_to_RGB ("#ffffff") = some [255, 255, 255] := by decide
  have htrip := runStops_triple ⟨"#000000", 0, none⟩ ⟨"#808080", 1, none⟩
    ⟨"#ffffff", 2, none⟩ [0, 0, 0] [128, 128, 128] [255, 255, 255] hs0 hs1 hs2
  set δ : ℚ := gdelta 0 1 255 true with hδdef
  have hδ : δ = 1 / 255 := by
    rw [hδdef, gdelta]
    norm_num
  set stops := genLoop [0, 0, 0] [128, 128, 128] (1 : ℚ) δ (1 : ℚ) (1 : ℚ)
    255 true 255 0 (0 : ℚ) with hstops
  have htrip2 : runStops threeBp = .ok stops := by
    rw [show threeBp = [⟨"#000000", 0, none⟩, ⟨"#808080", 1, none⟩,
      ⟨"#ffffff", 2, none⟩] from rfl]
    exact htrip
  have hlen : stops.length = 255 := genLoop_length _ _ _ _ _ _ _ _ _ _ _
  have hgetD : ∀ i : ℕ, i < 255 → stops.getD i default =
      genStep [0, 0, 0] [128, 128, 128] 1 δ 1 1 255 true i ((0 : ℚ) + (i : ℚ) * δ) := by
    intro i hi
    rw [hstops, genLoop_getD _ _ _ _ _ _ _ _ _ _ _ _ hi, Nat.zero_add]
  refine ⟨buildResult stops, ?_, ?_, ?_, ?_, ?_⟩
  · unfold run
    rw [hsort, htrip2]
    rfl
  · show (buildResult stops).stops.length = 255
    simpa [buildResult] using hlen
  · show ((buildResult stops).stops.getD 253 default).rangeEnd = 1
    have : (buildResult stops).stops = stops := rfl
    rw [this, hgetD 253 (by omega), genStep_rangeEnd, if_pos (by norm_num)]
  · have : (buildResult stops).stops = stops := rfl
    rw [this, hgetD 254 (by omega), genStep_rangeStart, hδ]
    norm_num
  · have : (buildResult stops).stops = stops := rfl
    rw [this, hgetD 254 (by omega), genStep_rangeEnd, if_neg (by norm_num)]
    rw [hδ]
    rw [if_pos (by norm_num)]
    norm_num

/-! The claims. -/

/-- C2 (amended): the bin allocation of `run` (lines 236-253) always returns
exactly `numSegments` entries summing exactly to `totalBudget` when
`numSegments ≥ 1` — but it guarantees neither that entries are ≥ 1 nor any
InvalidConfiguration failure: a zero entry is simply returned (see the
counterexample). -/
theorem c2_alloc_length_sum (numSegments totalBudget : ℕ) (hk : 1 ≤ numSegments) :
    (allocate numSegments totalBudget).length = numSegments ∧
    (allocate numSegments totalBudget).sum = totalBudget :=
  ⟨allocate_length _ _, allocate_sum _ _ hk⟩

/-- C2 witness: 3 segments, budget 10 — three entries summing to 10. -/
theorem c2_alloc_length_sum_witness :
    1 ≤ 3 ∧ (allocate 3 10).length = 3 ∧ (allocate 3 10).sum = 10 :=
  ⟨by decide, c2_alloc_length_sum 3 10 (by decide)⟩

/-- C2 counterexample: with numSegments = 2 ≤ 255 = totalBudget the code
returns [255, 0] — an entry equal to 0, with no InvalidConfiguration
failure, refuting "each entry ≥ 1 … fails … instead of returning such a
sequence". -/
theorem c2_counterexample :
    (2 : ℕ) ≤ 255 ∧ allocate 2 255 = [255, 0] := by decide

/-- C5: for every interpolator call with n ≥ 2 that produces stops, the
emitted opacity is startOpacity at step 0, endOpacity at step n-1, and
exactly 1 (fully opaque) at every interior step — never interpolated. -/
theorem c5_opacity (sh fh : String) (sv ev : ℚ) (n : ℕ) (sop eop : ℚ) (ex : Bool)
    (stops : List Stop) (hn : 2 ≤ n)
    (hok : generate_gradient_values sh fh sv ev n sop eop ex = .ok stops) :
    (stops.getD 0 default).opacityVal = sop ∧
    (stops.getD (n - 1) default).opacityVal = eop ∧
    ∀ t, 0 < t → t < n - 1 → (stops.getD t default).opacityVal = 1 := by
  obtain ⟨s, f, hs, hf, hn1, h0, hst⟩ := generate_ok_inv _ _ _ _ _ _ _ _ _ hok
  subst hst
  refine ⟨?_, ?_, ?_⟩
  · rw [genLoop_getD _ _ _ _ _ _ _ _ _ _ _ _ (by omega), Nat.zero_add,
      genStep_opacityVal, if_pos rfl]
  · rw [genLoop_getD _ _ _ _ _ _ _ _ _ _ _ _ (by omega), Nat.zero_add,
      genStep_opacityVal, if_neg (by omega), if_pos rfl]
  · intro t ht1 ht2
    rw [genLoop_getD _ _ _ _ _ _ _ _ _ _ _ _ (by omega), Nat.zero_add,
      genStep_opacityVal, if_neg (by omega), if_neg (by omega)]

/-- C5 witness: a three-stop segment from red (opacity 0) to blue
(opacity 1); the interior stop is fully opaque. -/
theorem c5_opacity_witness :
    2 ≤ 3 ∧
    ((((generate_gradient_values ("#ff0000") ("#0000ff") 0 10 3 0 1
        false).toOption.getD []).getD 1 default).opacityVal = 1) :=
  ⟨by decide,
    (c5_opacity ("#ff0000") ("#0000ff") 0 10 3 0 1 false
      ((generate_gradient_values ("#ff0000") ("#0000ff") 0 10 3 0 1
        false).toOption.getD [])
      (by decide) rfl).2.2 1 (by decide) (by decide)⟩

/-- C6 counterexample: an input with 0 records does not fail at all — `run`
succeeds with an empty stop sequence (and writes all headers/footers) — and
an input with 1 record fails with ZeroDivisionError (255 divided by
num_groups = 0), not with any dedicated insufficient-input error; no such
error kind exists in the code. -/
theorem c6_counterexample :
    (run []).isOk = true ∧ (run []).map RunResult.stops = .ok [] ∧
    run [⟨"#000000", 0, none⟩] = .error PyError.zeroDivision :=
  ⟨rfl, rfl, rfl⟩

/-- C6 (amended): with fewer than 2 breakpoint records there is no dedicated
insufficient-input failure: exactly one record raises ZeroDivisionError at
the `ceil(255 / num_groups)` of line 237, while zero records succeed and
produce a Gradient with no stops. -/
theorem c6_lt2_behavior :
    (∀ r : Record, run [r] = .error PyError.zeroDivision) ∧
    (run []).map RunResult.stops = .ok [] :=
  ⟨fun _ => rfl, rfl⟩

/-- C6 witness: the amended behavior at a concrete record. -/
theorem c6_lt2_behavior_witness :
    run [⟨"#abcdef", 5, none⟩] = .error PyError.zeroDivision ∧
    (run []).map RunResult.stops = .ok [] :=
  ⟨c6_lt2_behavior.1 ⟨"#abcdef", 5, none⟩, c6_lt2_behavior.2⟩

/-- C7: in the color→range map every hex key written by at least one stop
maps to the `"<rangeStart>,<rangeEnd>"` string of the last stop with that
hex color in assembly order: later writes overwrite earlier ones and
collisions are neither deduplicated nor errors. -/
theorem c7_last_write_wins (stops : List Stop) (key : String) (st : Stop)
    (hlast : stops.reverse.find? (fun s => s.hex == key) = some st) :
    lookupAssoc (colorValMapOf stops) key = some (valRangeStr st) := by
  induction stops using List.reverseRecOn with
  | nil => simp at hlast
  | append_singleton l a ih =>
    rw [colorValMapOf_append, lookupAssoc_insert]
    rw [List.reverse_append, List.reverse_singleton, List.singleton_append] at hlast
    by_cases hhex : (a.hex == key) = true
    · have hfind : List.find? (fun s => s.hex == key) (a :: l.reverse) = some a :=
        List.find?_cons_of_pos _ hhex
      rw [hfind] at hlast
      cases hlast
      rw [if_pos (beq_iff_eq.mp hhex).symm]
    · have hfind : List.find? (fun s => s.hex == key) (a :: l.reverse) =
          List.find? (fun s => s.hex == key) l.reverse :=
        List.find?_cons_of_neg _ hhex
      rw [hfind] at hlast
      rw [if_neg fun hk => hhex (beq_iff_eq.mpr hk.symm)]
      exact ih hlast

/-- C7 witness: with two stops sharing the color "#010203" the map holds the
second stop's range string. -/
theorem c7_last_write_wins_witness :
    ([stopA, stopB].reverse.find? (fun s => s.hex == "#010203") = some stopB) ∧
    lookupAssoc (colorValMapOf [stopA, stopB]) ("#010203") =
      some (valRangeStr stopB) :=
  ⟨rfl, c7_last_write_wins [stopA, stopB] ("#010203") stopB rfl⟩

/-- C8: the GDAL LUT output is exactly one line per stop, in assembly order,
and the GIBS XML output is its header, one ColorMapEntry per stop in order,
then its footer; in both formats a stop is marked transparent iff its
opacity equals 0: the alpha is binary ("0"/"255", "true"/"false"), never
graduated. -/
theorem c8_lut_gibs (stops : List Stop) :
    lutStringOf stops = String.join (stops.map lutLine) ∧
    gibsStringOf stops =
      gibsHeader ++ String.join (stops.map gibsEntry) ++ gibsFooter ∧
    ∀ st ∈ stops,
      ((lutAlphaStr st = "0" ↔ st.opacityVal = 0) ∧
        (lutAlphaStr st = "0" ∨ lutAlphaStr st = "255")) ∧
      ((gibsTransparentStr st = "true" ↔ st.opacityVal = 0) ∧
        (gibsTransparentStr st = "true" ∨ gibsTransparentStr st = "false")) := by
  refine ⟨?_, ?_, ?_⟩
  · unfold lutStringOf
    apply String.ext
    rw [foldl_append_data, join_data]
    simp [List.map_map, Function.comp_def, show ("" : String).data = [] from rfl]
  · unfold gibsStringOf
    apply String.ext
    simp [String.data_append, foldl_append_data, join_data, List.map_map,
      Function.comp_def, List.append_assoc]
  · intro st _hst
    refine ⟨⟨?_, ?_⟩, ?_, ?_⟩
    · unfold lutAlphaStr
      by_cases h : st.opacityVal = 0
      · simp [h]
      · simp only [h, if_false, iff_false]
        intro hcontra
        exact absurd hcontra (by decide)
    · unfold lutAlphaStr
      by_cases h : st.opacityVal = 0
      · simp [h]
      · simp [h]
    · unfold gibsTransparentStr
      by_cases h : st.opacityVal = 0
      · simp [h]
      · simp only [h, if_false, iff_false]
        intro hcontra
        exact absurd hcontra (by decide)
    · unfold gibsTransparentStr
      by_cases h : st.opacityVal = 0
      · simp [h]
      · simp [h]

/-- C8 witness: the LUT of a single fully-opaque stop is its one line, and
its alpha string is "255", not "0". -/
theorem c8_lut_gibs_witness :
    lutStringOf [stopA] = String.join ([stopA].map lutLine) ∧
    (lutAlphaStr stopA = "0" ↔ stopA.opacityVal = 0) :=
  ⟨(c8_lut_gibs [stopA]).1, ((c8_lut_gibs [stopA]).2.2 stopA (by simp)).1.1⟩

set_option maxRecDepth 20000 in
/-- Each hex channel of a byte value renders as exactly two lowercase hex
digits which `int(s, 16)` parses back to the value. -/
theorem hexChannel_ok : ∀ v : ℕ, v ≤ 255 →
    (hexChannel (v : ℤ)).data.length = 2 ∧
    (hexChannel (v : ℤ)).data.all isLowerHexDigit = true ∧
    parseHex (hexChannel (v : ℤ)).data = some v := by decide

theorem RGB_to_hex_data (r g b : ℤ) :
    (RGB_to_hex [r, g, b]).data =
      '#' :: ((hexChannel r).data ++ ((hexChannel g).data ++ (hexChannel b).data)) := by
  unfold RGB_to_hex String.join
  simp only [List.map_cons, List.map_nil, List.foldl_cons, List.foldl_nil]
  simp [String.data_append, show ("#" : String).data = ['#'] from rfl,
    show ("" : String).data = [] from rfl, List.append_assoc]

set_option maxRecDepth 4000 in
/-- C10: RGB_to_hex of three channel values in [0, 255] is "#" followed by
exactly six lowercase hexadecimal digits (channels below 16 zero-padded),
and hex_to_RGB parses the result back to exactly the input triple. -/
theorem c10_hex_round_trip (r g b : ℕ) (hr : r ≤ 255) (hg : g ≤ 255) (hb : b ≤ 255) :
    (RGB_to_hex [(r : ℤ), (g : ℤ), (b : ℤ)]).data.head? = some '#' ∧
    (RGB_to_hex [(r : ℤ), (g : ℤ), (b : ℤ)]).data.tail.length = 6 ∧
    (RGB_to_hex [(r : ℤ), (g : ℤ), (b : ℤ)]).data.tail.all isLowerHexDigit = true ∧
    hex_to_RGB (RGB_to_hex [(r : ℤ), (g : ℤ), (b : ℤ)]) = some [r, g, b] := by
  obtain ⟨hlr, har, hpr⟩ := hexChannel_ok r hr
  obtain ⟨hlg, hag, hpg⟩ := hexChannel_ok g hg
  obtain ⟨hlb, hab, hpb⟩ := hexChannel_ok b hb
  have hdata := RGB_to_hex_data (r : ℤ) (g : ℤ) (b : ℤ)
  have e1 : (((RGB_to_hex [(r : ℤ), (g : ℤ), (b : ℤ)]).data.drop 1).take 2) =
      (hexChannel (r : ℤ)).data := by
    rw [hdata]
    rw [show ('#' :: ((hexChannel (r : ℤ)).data ++ ((hexChannel (g : ℤ)).data ++
      (hexChannel (b : ℤ)).data))).drop 1 = (hexChannel (r : ℤ)).data ++
      ((hexChannel (g : ℤ)).data ++ (hexChannel (b : ℤ)).data) from rfl]
    rw [show (2 : ℕ) = (hexChannel (r : ℤ)).data.length from hlr.symm, List.take_left]
  have edrop2 : ((hexChannel (r : ℤ)).data ++ ((hexChannel (g : ℤ)).data ++
      (hexChannel (b : ℤ)).data)).drop 2 =
      (hexChannel (g : ℤ)).data ++ (hexChannel (b : ℤ)).data := by
    rw [show (2 : ℕ) = (hexChannel (r : ℤ)).data.length from hlr.symm, List.drop_left]
  have e3 : (((RGB_to_hex [(r : ℤ), (g : ℤ), (b : ℤ)]).data.drop 3).take 2) =
      (hexChannel (g : ℤ)).data := by
    rw [hdata]
    rw [show ('#' :: ((hexChannel (r : ℤ)).data ++ ((hexChannel (g : ℤ)).data ++
      (hexChannel (b : ℤ)).data))).drop 3 = ((hexChannel (r : ℤ)).data ++
      ((hexChannel (g : ℤ)).data ++ (hexChannel (b : ℤ)).data)).drop 2 from rfl]
    rw [edrop2]
    rw [show (2 : ℕ) = (hexChannel (g : ℤ)).data.length from hlg.symm, List.take_left]
  have e5 : (((RGB_to_hex [(r : ℤ), (g : ℤ), (b : ℤ)]).data.drop 5).take 2) =
      (hexChannel (b : ℤ)).data := by
    rw [hdata]
    rw [show ('#' :: ((hexChannel (r : ℤ)).data ++ ((hexChannel (g : ℤ)).data ++
      (hexChannel (b : ℤ)).data))).drop 5 = ((hexChannel (r : ℤ)).data ++
      ((hexChannel (g : ℤ)).data ++ (hexChannel (b : ℤ)).data)).drop 4 from rfl]
    have h4 : ((hexChannel (r : ℤ)).data ++ ((hexChannel (g : ℤ)).data ++
        (hexChannel (b : ℤ)).data)).drop 4 =
        ((hexChannel (g : ℤ)).data ++ (hexChannel (b : ℤ)).data).drop 2 := by
      have hdd := List.drop_drop 2 2 ((hexChannel (r : ℤ)).data ++
        ((hexChannel (g : ℤ)).data ++ (hexChannel (b : ℤ)).data))
      rw [edrop2] at hdd
      exact hdd.symm
    rw [h4]
    rw [show ((hexChannel (g : ℤ)).data ++ (hexChannel (b : ℤ)).data).drop 2 =
      (hexChannel (b : ℤ)).data from by
        rw [show (2 : ℕ) = (hexChannel (g : ℤ)).data.length from hlg.symm, List.drop_left]]
    rw [show (2 : ℕ) = (hexChannel (b : ℤ)).data.length from hlb.symm, List.take_length]
  refine ⟨?_, ?_, ?_, ?_⟩
  · rw [hdata]; rfl
  · rw [hdata]
    simp [hlr, hlg, hlb]
  · rw [hdata]
    simp only [List.tail_cons, List.all_append, Bool.and_eq_true]
    exact ⟨har, hag, hab⟩
  · unfold hex_to_RGB
    simp only [e1, e3, e5, hpr, hpg, hpb]

/-- C10 witness: the round trip at channels 0, 160, 255. -/
theorem c10_hex_round_trip_witness :
    (0 : ℕ) ≤ 255 ∧ (160 : ℕ) ≤ 255 ∧ (255 : ℕ) ≤ 255 ∧
    hex_to_RGB (RGB_to_hex [((0 : ℕ) : ℤ), ((160 : ℕ) : ℤ), ((255 : ℕ) : ℤ)]) =
      some [0, 160, 255] :=
  ⟨by decide, by decide, by decide,
    (c10_hex_round_trip 0 160 255 (by decide) (by decide) (by decide)).2.2.2⟩

/-- C3 (amended): for every interpolator call with n ≥ 2 that produces
stops, each channel of the stop at step t equals the floor (Python `int()`
truncation, on a nonnegative operand) — not the round — of
`start[c] + p * (end[c] - start[c])`, with `p = t/n` when excludeEnd and
`p = t/(n-1)` otherwise; and every call with n = 1 raises ZeroDivisionError
instead of producing the start color. -/
theorem c3_channel_truncation (sh fh : String) (sv ev : ℚ) (n : ℕ) (sop eop : ℚ)
    (ex : Bool) (s f : List ℕ) (stops : List Stop) (t : ℕ)
    (hs : hex_to_RGB sh = some s) (hf : hex_to_RGB fh = some f)
    (hn : 2 ≤ n) (ht : t < n)
    (hok : generate_gradient_values sh fh sv ev n sop eop ex = .ok stops) :
    ((stops.getD t default).vec =
      (List.range 3).map fun j =>
        ⌊(s.getD j 0 : ℚ) +
          (if ex then (t : ℚ) / (n : ℚ) else (t : ℚ) / ((n : ℚ) - 1)) *
            ((f.getD j 0 : ℚ) - (s.getD j 0 : ℚ))⌋) ∧
    ∀ (sh2 fh2 : String) (sv2 ev2 sop2 eop2 : ℚ) (ex2 : Bool),
      generate_gradient_values sh2 fh2 sv2 ev2 1 sop2 eop2 ex2 =
        .error PyError.zeroDivision := by
  constructor
  · obtain ⟨s2, f2, hs2, hf2, _, _, hst⟩ := generate_ok_inv _ _ _ _ _ _ _ _ _ hok
    rw [hs] at hs2
    rw [hf] at hf2
    injection hs2 with hs3
    injection hf2 with hf3
    subst hs3
    subst hf3
    subst hst
    rw [genLoop_getD _ _ _ _ _ _ _ _ _ _ _ _ ht, Nat.zero_add, genStep_vec]
    apply List.map_congr_left
    intro j _hj
    have h2n : (2 : ℚ) ≤ (n : ℚ) := by exact_mod_cast hn
    set p : ℚ := if ex then (t : ℚ) / (n : ℚ) else (t : ℚ) / ((n : ℚ) - 1) with hp
    have hp0 : 0 ≤ p := by
      rw [hp]
      split
      · positivity
      · apply div_nonneg (by positivity)
        linarith
    have hp1 : p ≤ 1 := by
      have htn : (t : ℚ) + 1 ≤ (n : ℚ) := by exact_mod_cast ht
      rw [hp]
      split
      · rw [div_le_one (by linarith)]
        linarith
      · rw [div_le_one (by linarith)]
        linarith
    have hnn : 0 ≤ (s.getD j 0 : ℚ) + p * ((f.getD j 0 : ℚ) - (s.getD j 0 : ℚ)) := by
      have hrw : (s.getD j 0 : ℚ) + p * ((f.getD j 0 : ℚ) - (s.getD j 0 : ℚ)) =
          (1 - p) * (s.getD j 0 : ℚ) + p * (f.getD j 0 : ℚ) := by ring
      rw [hrw]
      have hsj : (0 : ℚ) ≤ (s.getD j 0 : ℚ) := by positivity
      have hfj : (0 : ℚ) ≤ (f.getD j 0 : ℚ) := by positivity
      have h1 := mul_nonneg (by linarith : (0 : ℚ) ≤ 1 - p) hsj
      have h2 := mul_nonneg hp0 hfj
      linarith
    exact pyInt_eq_floor _ hnn
  · intro sh2 fh2 sv2 ev2 sop2 eop2 ex2
    rfl

/-- C3 counterexample: interpolating "#000000" → "#030303" with n = 6 and
excludeEnd, step t = 3 gives p = 1/2 and exact channel value 1.5; the code
emits 1 (int() truncation) while the claimed round(1.5) is 2.  Moreover a
call with n = 1 raises ZeroDivisionError rather than taking the start
color. -/
theorem c3_counterexample :
    (generate_gradient_values ("#000000") ("#030303") 0 1 6 1 1 true).map
      (fun stops => (stops.getD 3 default).vec) = .ok [1, 1, 1] ∧
    specRound ((0 : ℚ) + ((3 : ℚ) / 6) * (3 - 0)) = 2 ∧
    ((1 : ℤ) ≠ 2) ∧
    generate_gradient_values ("#000000") ("#030303") 0 1 1 1 1 false =
      .error PyError.zeroDivision := by
  refine ⟨?_, ?_, by decide, rfl⟩
  · rw [generate_eq_ok ("#000000") ("#030303") 0 1 6 1 1 true [0, 0, 0] [3, 3, 3]
      (by decide) (by decide) (by decide) (by decide)]
    simp only [Except.map]
    rw [genLoop_getD _ _ _ _ _ _ _ _ _ _ _ _ (by omega : 3 < 6), Nat.zero_add,
      genStep_vec]
    rw [show List.range 3 = [0, 1, 2] from rfl]
    simp only [List.map_cons, List.map_nil, List.getD_cons_zero, List.getD_cons_succ]
    norm_num [pyInt]
  · unfold specRound
    norm_num

/-- C3 witness: the floor formula instantiated at the call of the
counterexample (n = 6, excludeEnd, step 3). -/
theorem c3_channel_truncation_witness :
    hex_to_RGB ("#000000") = some [0, 0, 0] ∧
    hex_to_RGB ("#030303") = some [3, 3, 3] ∧ 2 ≤ 6 ∧ 3 < 6 ∧
    ((((generate_gradient_values ("#000000") ("#030303") 0 1 6 1 1
        true).toOption.getD []).getD 3 default).vec =
      (List.range 3).map fun j =>
        ⌊(([0, 0, 0] : List ℕ).getD j 0 : ℚ) +
          (if (true : Bool) then ((3 : ℕ) : ℚ) / ((6 : ℕ) : ℚ)
            else ((3 : ℕ) : ℚ) / (((6 : ℕ) : ℚ) - 1)) *
            ((([3, 3, 3] : List ℕ).getD j 0 : ℚ) -
              (([0, 0, 0] : List ℕ).getD j 0 : ℚ))⌋) :=
  ⟨by decide, by decide, by decide, by decide,
    (c3_channel_truncation ("#000000") ("#030303") 0 1 6 1 1 true [0, 0, 0]
      [3, 3, 3]
      ((generate_gradient_values ("#000000") ("#030303") 0 1 6 1 1
        true).toOption.getD [])
      3 (by decide) (by decide) (by decide) (by decide) rfl).1⟩

/-- C4 (amended): the second-to-last stop (t = n-2) of every interpolator
call with n ≥ 2 has rangeEnd forced to the segment's endValue exactly; and
for every 2-breakpoint input with parseable colors the assembled Gradient's
final stop has rangeEnd exactly the larger breakpoint value.  (For 3 or
more breakpoints the final stop can end at an earlier breakpoint's value —
see the counterexample — because trailing segments may receive 0 stops.) -/
theorem c4_boundary_correction (sh fh : String) (sv ev : ℚ) (n : ℕ)
    (sop eop : ℚ) (ex : Bool) (stops : List Stop) (hn : 2 ≤ n)
    (hok : generate_gradient_values sh fh sv ev n sop eop ex = .ok stops) :
    (stops.getD (n - 2) default).rangeEnd = ev ∧
    ∀ (r0 r1 : Record) (s0 s1 : List ℕ),
      hex_to_RGB r0.color = some s0 → hex_to_RGB r1.color = some s1 →
      ∃ res, run [r0, r1] = .ok res ∧
        res.stops.getLast?.map Stop.rangeEnd = some (max r0.value r1.value) := by
  constructor
  · obtain ⟨s2, f2, _, _, _, _, hst⟩ := generate_ok_inv _ _ _ _ _ _ _ _ _ hok
    subst hst
    rw [genLoop_getD _ _ _ _ _ _ _ _ _ _ _ _ (by omega), Nat.zero_add,
      genStep_rangeEnd, if_pos (by omega)]
  · intro r0 r1 s0 s1 hs0 hs1
    by_cases h : r0.value ≤ r1.value
    · obtain ⟨stops2, hok2, hlen2, _, _, _, hlast⟩ :=
        pair_stop_facts r0 r1 s0 s1 h hs0 hs1
      refine ⟨buildResult stops2, ?_, ?_⟩
      · unfold run
        rw [sortRecords_pair, if_pos h, hok2]
        rfl
      · have hbs : (buildResult stops2).stops = stops2 := rfl
        rw [hbs, getLast?_eq_getD stops2 254 (by omega), Option.map_some']
        rw [hlast, max_eq_right h]
    · have h2 : r1.value ≤ r0.value := le_of_not_le h
      obtain ⟨stops2, hok2, hlen2, _, _, _, hlast⟩ :=
        pair_stop_facts r1 r0 s1 s0 h2 hs1 hs0
      refine ⟨buildResult stops2, ?_, ?_⟩
      · unfold run
        rw [sortRecords_pair, if_neg h, hok2]
        rfl
      · have hbs : (buildResult stops2).stops = stops2 := rfl
        rw [hbs, getLast?_eq_getD stops2 254 (by omega), Option.map_some']
        rw [hlast, max_eq_left h2]

/-- C4 counterexample: for the 3-breakpoint input with values 0, 1, 2 the
final stop's rangeEnd is 1, the middle breakpoint's value — not the last
breakpoint's value 2 — because the first segment absorbed the whole 255-stop
budget and the last segment got 0 stops. -/
theorem c4_counterexample :
    ∃ res, run threeBp = .ok res ∧
      res.stops.getLast?.map Stop.rangeEnd = some 1 ∧
      threeBp.getLast?.map Record.value = some 2 ∧ (1 : ℚ) ≠ 2 := by
  obtain ⟨res, hrun, hlen, _, _, hend⟩ := threeBp_run_facts
  refine ⟨res, hrun, ?_, rfl, by norm_num⟩
  rw [getLast?_eq_getD res.stops 254 (by omega), Option.map_some', hend]

/-- C4 witness: part one at a concrete 3-stop call (rangeEnd of stop n-2 is
the end value 10), part two at a concrete 2-breakpoint input. -/
theorem c4_boundary_correction_witness :
    2 ≤ 3 ∧
    ((((generate_gradient_values ("#000000") ("#ffffff") 0 10 3 1 1
        false).toOption.getD []).getD (3 - 2) default).rangeEnd = 10) ∧
    ∃ res, run [(⟨"#000000", 0, none⟩ : Record), ⟨"#ffffff", 10, none⟩] =
        .ok res ∧
      res.stops.getLast?.map Stop.rangeEnd =
        some (max ((⟨"#000000", 0, none⟩ : Record).value)
          ((⟨"#ffffff", 10, none⟩ : Record).value)) := by
  have hthm := c4_boundary_correction ("#000000") ("#ffffff") 0 10 3 1 1 false
    ((generate_gradient_values ("#000000") ("#ffffff") 0 10 3 1 1
      false).toOption.getD [])
    (by decide) rfl
  exact ⟨by decide, hthm.1,
    hthm.2 ⟨"#000000", 0, none⟩ ⟨"#ffffff", 10, none⟩ [0, 0, 0] [255, 255, 255]
      (by decide) (by decide)⟩

/-- C1 (amended): every successful run on ≥ 2 breakpoints yields exactly 255
stops (the allocation always exhausts the budget); and for every
2-breakpoint input with parseable colors the run succeeds with 255 stops
whose ranges are contiguous, non-decreasing and cover exactly the interval
between the two breakpoint values.  For 3 or more breakpoints contiguity
and coverage can fail — see the counterexample — because the first segment
can absorb the whole budget and the forced rangeEnd at t = n-2 overlaps the
following stop inside an excluded-end segment. -/
theorem c1_budget_coverage (r0 r1 : Record) (s0 s1 : List ℕ)
    (hs0 : hex_to_RGB r0.color = some s0) (hs1 : hex_to_RGB r1.color = some s1) :
    (∀ (argLines : List Record) (res : RunResult), 2 ≤ argLines.length →
      run argLines = .ok res → res.stops.length = MAX_NUM_COLORS) ∧
    ∃ res, run [r0, r1] = .ok res ∧ res.stops.length = MAX_NUM_COLORS ∧
      contiguousStops res.stops ∧ nondecreasingStops res.stops ∧
      coversStops res.stops (min r0.value r1.value) (max r0.value r1.value) := by
  refine ⟨fun argLines res hk h => run_ok_stops_length argLines res hk h, ?_⟩
  by_cases h : r0.value ≤ r1.value
  · obtain ⟨stops2, hok2, hlen2, hcont, hnond, hcov, _⟩ :=
      pair_stop_facts r0 r1 s0 s1 h hs0 hs1
    refine ⟨buildResult stops2, ?_, hlen2, hcont, hnond, ?_⟩
    · unfold run
      rw [sortRecords_pair, if_pos h, hok2]
      rfl
    · rw [min_eq_left h, max_eq_right h]
      exact hcov
  · have h2 : r1.value ≤ r0.value := le_of_not_le h
    obtain ⟨stops2, hok2, hlen2, hcont, hnond, hcov, _⟩ :=
      pair_stop_facts r1 r0 s1 s0 h2 hs1 hs0
    refine ⟨buildResult stops2, ?_, hlen2, hcont, hnond, ?_⟩
    · unfold run
      rw [sortRecords_pair, if_neg h, hok2]
      rfl
    · rw [min_eq_right h2, max_eq_left h2]
      exact hcov

/-- C1 counterexample: the 3-breakpoint input with values 0, 1, 2 produces
255 stops, but they are NOT contiguous (stop 253's rangeEnd is forced to 1
while stop 254 starts at 254/255) and they do NOT cover up to the last
breakpoint value 2 (the last stop ends at 1): the first segment absorbed
the whole budget. -/
theorem c1_counterexample :
    ∃ res, run threeBp = .ok res ∧ res.stops.length = 255 ∧
      ¬ contiguousStops res.stops ∧
      ¬ coversStops res.stops 0 2 := by
  obtain ⟨res, hrun, hlen, h253, h254s, h254e⟩ := threeBp_run_facts
  refine ⟨res, hrun, hlen, ?_, ?_⟩
  · intro hcont
    have hc := hcont 253 (by omega)
    rw [h253] at hc
    rw [show (253 : ℕ) + 1 = 254 from rfl, h254s] at hc
    norm_num at hc
  · intro hcov
    have hc2 := hcov.2
    rw [hlen] at hc2
    rw [show (255 : ℕ) - 1 = 254 from rfl, h254e] at hc2
    norm_num at hc2

/-- C1 witness: a concrete 2-breakpoint run covering [0, 10] with 255
contiguous stops. -/
theorem c1_budget_coverage_witness :
    hex_to_RGB ((⟨"#000000", 0, none⟩ : Record).color) = some [0, 0, 0] ∧
    ∃ res, run [(⟨"#000000", 0, none⟩ : Record), ⟨"#ffffff", 10, none⟩] =
        .ok res ∧
      res.stops.length = MAX_NUM_COLORS ∧ contiguousStops res.stops ∧
      nondecreasingStops res.stops ∧
      coversStops res.stops
        (min ((⟨"#000000", 0, none⟩ : Record).value)
          ((⟨"#ffffff", 10, none⟩ : Record).value))
        (max ((⟨"#000000", 0, none⟩ : Record).value)
          ((⟨"#ffffff", 10, none⟩ : Record).value)) :=
  ⟨by decide,
    (c1_budget_coverage ⟨"#000000", 0, none⟩ ⟨"#ffffff", 10, none⟩ [0, 0, 0]
      [255, 255, 255] (by decide) (by decide)).2⟩

/-- C9: the pipeline sorts its input by value before assembling, so any two
permutations of the same records with pairwise-distinct values produce
identical results — every output, byte for byte, depends only on the set of
records. -/
theorem c9_order_independence (l1 l2 : List Record) (hp : l1.Perm l2)
    (hd : (l1.map Record.value).Nodup) : run l1 = run l2 := by
  unfold run
  rw [sortRecords_eq_of_perm l1 l2 hp hd]

/-- C9 witness: swapping two records with distinct values leaves the whole
result unchanged. -/
theorem c9_order_independence_witness :
    ([⟨"#000000", 0, none⟩, ⟨"#ffffff", 10, none⟩] : List Record).Perm
      [⟨"#ffffff", 10, none⟩, ⟨"#000000", 0, none⟩] ∧
    (([⟨"#000000", 0, none⟩, ⟨"#ffffff", 10, none⟩] : List Record).map
      Record.value).Nodup ∧
    run [⟨"#000000", 0, none⟩, ⟨"#ffffff", 10, none⟩] =
      run [⟨"#ffffff", 10, none⟩, ⟨"#000000", 0, none⟩] :=
  ⟨by decide, by decide,
    c9_order_independence _ _ (by decide) (by decide)⟩

end ColorMapGen
